import Mathlib

/-!
A verification development for `deepspeed/runtime/config_utils.py`.

The Python module is embedded shallowly:

* `DeepSpeedConfigModel` instances become `Obj` (field values plus the
  `model_fields_set` marker list); class-level pydantic metadata becomes
  `Schema` / `FieldInfo` / `DepMeta`.
* The pydantic validation engine is an external collaborator of the module;
  it is modelled at the level the spec describes it: construction validates
  supplied values and defaults, rejects unknown fields, records which fields
  the caller supplied, and assignment re-validates (`validate_assignment`).
* Exceptions become `Except PyErr`, logging becomes an explicit `LogEntry`
  list returned next to the result.
* Python numbers are modelled as exact integers (`Int`); the scientific
  notation encoder is embedded for boolean / integer / string / null /
  sequence / mapping values.
-/

set_option maxHeartbeats 1000000

namespace DS

/-- Python exception values raised by the config layer or its collaborators. -/
inductive PyErr : Type where
  | validationError (msg : String)
  | attributeError (msg : String)
  | assertionError (msg : String)
  | userError (msg : String)
deriving DecidableEq

/-- A record emitted through `deepspeed.utils.logger`. -/
inductive LogEntry : Type where
  | warning (msg : String)
  | error (msg : String)
deriving DecidableEq

/-- Runtime values held by config fields: strings, integers, booleans and
nested sub-config objects (a sub-object carries its field values and its own
`model_fields_set`). -/
inductive Val : Type where
  | vstr (s : String)
  | vint (n : Int)
  | vbool (b : Bool)
  | vobj (values : List (String × Val)) (fieldsSet : List String)

/-- A constructed pydantic model instance: the per-field values and the set of
field names the caller supplied explicitly (`model_fields_set`). -/
structure Obj : Type where
  values : List (String × Val)
  fieldsSet : List String

/-- View a sub-config object as a `Val`. -/
def Obj.toVal (o : Obj) : Val := .vobj o.values o.fieldsSet

/-- The recognized keys of a deprecated field's `json_schema_extra` bag, with
the defaults the code supplies through `dict.get`: `deprecated` defaults to
`False`, `deprecated_msg` and `new_param` to `""`, `set_new_param` to `True`,
and `new_param_fn` to the identity (modelled as `none`). -/
structure DepMeta : Type where
  deprecated : Bool
  deprecatedMsg : String
  newParam : String
  setNewParam : Bool
  newParamFn : Option (Val → Except PyErr Val)

/-- Class-level information about one declared field: its default (`none`
means the field is required), its validator (pydantic type
coercion/validation, which can fail), its `json_schema_extra` bag, and the
declared fields of its sub-model when the field holds a sub-config. -/
inductive FieldInfo : Type where
  | mk (default : Option Val) (validator : Val → Except PyErr Val)
      (schemaExtra : Option DepMeta)
      (subfields : Option (List (String × FieldInfo)))

def FieldInfo.default : FieldInfo → Option Val
  | .mk d _ _ _ => d

def FieldInfo.validator : FieldInfo → (Val → Except PyErr Val)
  | .mk _ v _ _ => v

def FieldInfo.schemaExtra : FieldInfo → Option DepMeta
  | .mk _ _ e _ => e

def FieldInfo.subfields : FieldInfo → Option (List (String × FieldInfo))
  | .mk _ _ _ s => s

/-- The `model_fields` of a config class, in declaration order. -/
abbrev Schema := List (String × FieldInfo)

/-- First-occurrence lookup in an association list keyed by strings. -/
def lookupStr {α : Type} : List (String × α) → String → Option α
  | [], _ => none
  | (k, v) :: rest, key => if k = key then some v else lookupStr rest key

/-- Update the value stored under a key, keeping its position; append the
pair when the key is absent (Python `dict` / attribute assignment). -/
def setValue : List (String × Val) → String → Val → List (String × Val)
  | [], k, v => [(k, v)]
  | (k', v') :: rest, k, v =>
    if k' = k then (k, v) :: rest else (k', v') :: setValue rest k v

/-- Add a name to `model_fields_set` if it is not already there. -/
def insertNew (name : String) (fs : List String) : List String :=
  if name ∈ fs then fs else fs ++ [name]

/-- Whether a raw value equals the placeholder string `"auto"` (a non-string
value never does). -/
def isAuto : Val → Bool
  | .vstr s => s = "auto"
  | _ => false

/-- The filter `__init__` applies to raw input when `strict` is false:
`{k: v for k, v in data.items() if (v != "auto" or k == "replace_method")}`. -/
def filterAuto (data : List (String × Val)) : List (String × Val) :=
  data.filter (fun kv => !isAuto kv.2 || kv.1 == "replace_method")

/-- Helper for `splitDots`: accumulate characters until a dot. -/
def splitDotsAux : List Char → List Char → List String
  | [], acc => [String.mk acc.reverse]
  | c :: cs, acc =>
    if c = '.' then String.mk acc.reverse :: splitDotsAux cs []
    else splitDotsAux cs (c :: acc)

/-- Python's `s.split(".")`: split a dotted path into its segments. -/
def splitDots (s : String) : List String := splitDotsAux s.data []

/-- `getattr` on a model instance: read a field's current value. -/
def getattrO (o : Obj) (name : String) : Except PyErr Val :=
  match lookupStr o.values name with
  | some v => .ok v
  | none => .error (.attributeError name)

/-- `setattr` on a model instance with `validate_assignment=True`: unknown
attributes are rejected, the assigned value runs through the field's own
validator, and the field is recorded in `model_fields_set`. -/
def setattrO (schema : Schema) (o : Obj) (name : String) (v : Val) :
    Except PyErr Obj :=
  match lookupStr schema name with
  | none => .error (.validationError ("Object has no attribute '" ++ name ++ "'"))
  | some fi =>
    match fi.validator v with
    | .ok v' => .ok ⟨setValue o.values name v', insertNew name o.fieldsSet⟩
    | .error e => .error e

/-- `delattr` on a deprecated field, as the spec describes it for the config
layer: the field's value is reset to its declared default and the field is
removed from `model_fields_set`; it fails when the field is unknown or has no
default to reset to. -/
def delattrO (schema : Schema) (o : Obj) (name : String) : Except PyErr Obj :=
  match lookupStr schema name with
  | none => .error (.attributeError name)
  | some fi =>
    match fi.default with
    | none => .error (.attributeError name)
    | some d => .ok ⟨setValue o.values name d, o.fieldsSet.filter (fun s => s != name)⟩

/-- `reduce(getattr, segments, obj)`: follow the leading segments of a dotted
path down to the owning sub-object; fails when a segment is missing or does
not hold a sub-object. -/
def navigate : Obj → List String → Except PyErr Obj
  | o, [] => .ok o
  | o, s :: rest =>
    match getattrO o s with
    | .ok (.vobj vs fs) => navigate ⟨vs, fs⟩ rest
    | .ok _ => .error (.attributeError s)
    | .error e => .error e

/-- The declared sub-model fields of a field, when it holds a sub-config. -/
def subSchemaOf (schema : Schema) (s : String) : Option Schema :=
  match lookupStr schema s with
  | some fi => fi.subfields
  | none => none

/-- Walk a schema down the leading segments of a dotted path. -/
def schemaAt : Schema → List String → Option Schema
  | schema, [] => some schema
  | schema, s :: rest =>
    match subSchemaOf schema s with
    | some sub => schemaAt sub rest
    | none => none

/-- Assign a value at the end of a dotted path: navigate the leading segments
and `setattr` the final field on the sub-object reached (the functional
rendering of Python's in-place mutation of the shared sub-object). -/
def updatePath : Schema → Obj → List String → String → Val → Except PyErr Obj
  | schema, o, [], name, v => setattrO schema o name v
  | schema, o, s :: rest, name, v =>
    match getattrO o s, subSchemaOf schema s with
    | .ok (.vobj vs fs), some sub =>
      match updatePath sub ⟨vs, fs⟩ rest name v with
      | .ok sub' => .ok ⟨setValue o.values s sub'.toVal, o.fieldsSet⟩
      | .error e => .error e
    | .ok _, _ => .error (.attributeError s)
    | .error e, _ => .error e

/-- Read the value at a dotted path (leading segments navigated, final
segment read on the sub-object reached). -/
def getAtPath (o : Obj) (segs : List String) : Except PyErr Val :=
  match navigate o segs.dropLast with
  | .ok sub => getattrO sub (segs.getLastD "")
  | .error e => .error e

/-- `DeepSpeedConfigModel._process_deprecated_field`, embedded line by line:
look up the field's `json_schema_extra`, apply `new_param_fn` to the field's
current value (before anything else), and when the field was explicitly
supplied, warn, remove the deprecated field, check the replacement was not
itself supplied, and assign the forwarded value through the dotted path.
Failures during removal and assignment are logged at error level and
re-raised. -/
def processDeprecatedField (schema : Schema) (obj : Obj) (depField : String) :
    Except PyErr Obj × List LogEntry :=
  match lookupStr schema depField with
  | none => (.error (.attributeError ("model_fields has no field " ++ depField)), [])
  | some fi =>
    match fi.schemaExtra with
    | none => (.error (.attributeError "json_schema_extra is None"), [])
    | some kwargs =>
      let newParamFn := kwargs.newParamFn.getD (fun v => .ok v)
      match getattrO obj depField with
      | .error e => (.error e, [])
      | .ok curVal =>
        match newParamFn curVal with
        | .error e => (.error e, [])
        | .ok paramValue =>
          let newField := kwargs.newParam
          let depMsg := kwargs.deprecatedMsg
          if depField ∈ obj.fieldsSet then
            let warnLog := [LogEntry.warning ("Config parameter " ++ depField
              ++ " is deprecated"
              ++ (if newField ≠ "" then " use " ++ newField ++ " instead" else "")
              ++ (if depMsg ≠ "" then ". " ++ depMsg else ""))]
            if (newField ≠ "") ∧ (kwargs.setNewParam = true) then
              match delattrO schema obj depField with
              | .error e =>
                (.error e, warnLog ++ [LogEntry.error ("Tried removing deprecated '"
                  ++ depField ++ "' from config")])
              | .ok obj1 =>
                let segs := splitDots newField
                let lead := segs.dropLast
                let lastName := segs.getLastD ""
                match navigate obj1 lead with
                | .error e => (.error e, warnLog)
                | .ok sub =>
                  if lastName ∈ sub.fieldsSet then
                    (.error (.assertionError ("Cannot provide deprecated parameter '"
                      ++ depField ++ "' and replacing parameter '" ++ newField
                      ++ "' together")), warnLog)
                  else
                    match updatePath schema obj1 lead lastName paramValue with
                    | .error e =>
                      (.error e, warnLog ++ [LogEntry.error ("Tried setting value for '"
                        ++ newField ++ "' with value from deprecated '" ++ depField ++ "'")])
                    | .ok obj2 => (.ok obj2, warnLog)
            else (.ok obj, warnLog)
          else (.ok obj, [])

/-- The guard `field_info.json_schema_extra and
field_info.json_schema_extra.get("deprecated", False)`. -/
def isDeprecated (fi : FieldInfo) : Bool :=
  match fi.schemaExtra with
  | some m => m.deprecated
  | none => false

/-- Run `_process_deprecated_field` over the listed fields in order,
threading the instance and the log and stopping at the first exception. -/
def depCheckAux (schema : Schema) :
    List (String × FieldInfo) → Obj → List LogEntry → Except PyErr Obj × List LogEntry
  | [], obj, log => (.ok obj, log)
  | (name, fi) :: rest, obj, log =>
    if isDeprecated fi then
      match processDeprecatedField schema obj name with
      | (.ok obj', log') => depCheckAux schema rest obj' (log ++ log')
      | (.error e, log') => (.error e, log ++ log')
    else depCheckAux schema rest obj log

/-- `DeepSpeedConfigModel._deprecated_fields_check`: process every field
whose `json_schema_extra` marks it deprecated, in declaration order. -/
def deprecatedFieldsCheck (schema : Schema) (obj : Obj) :
    Except PyErr Obj × List LogEntry :=
  depCheckAux schema schema obj []

/-- Validate the declared fields against the supplied data: a supplied value
runs through the field's validator and is recorded in `model_fields_set`; an
unsupplied field takes its declared default, which is itself validated
(`validate_default=True`); a missing required field is a validation error. -/
def validateFields (data : List (String × Val)) :
    List (String × FieldInfo) → Except PyErr (List (String × Val) × List String)
  | [] => .ok ([], [])
  | (name, fi) :: rest =>
    match lookupStr data name with
    | some v =>
      match fi.validator v with
      | .ok v' =>
        match validateFields data rest with
        | .ok (vs, fs) => .ok ((name, v') :: vs, name :: fs)
        | .error e => .error e
      | .error e => .error e
    | none =>
      match fi.default with
      | none => .error (.validationError ("Field required: " ++ name))
      | some d =>
        match fi.validator d with
        | .ok d' =>
          match validateFields data rest with
          | .ok (vs, fs) => .ok ((name, d') :: vs, fs)
          | .error e => .error e
        | .error e => .error e

/-- `pydantic.BaseModel.__init__` under this class's `model_config`:
undeclared keys are rejected (`extra="forbid"`) and the declared fields are
validated. -/
def pyValidate (schema : Schema) (data : List (String × Val)) : Except PyErr Obj :=
  if data.all (fun kv => (lookupStr schema kv.1).isSome) then
    match validateFields data schema with
    | .ok (vs, fs) => .ok ⟨vs, fs⟩
    | .error e => .error e
  else .error (.validationError "Extra inputs are not permitted")

/-- `DeepSpeedConfigModel.__init__(self, strict=False, **data)`: filter the
`"auto"` placeholders unless strict, run base validation, then the
deprecated-field pass. -/
def initModel (schema : Schema) (strict : Bool) (data : List (String × Val)) :
    Except PyErr Obj × List LogEntry :=
  let data' := if strict then data else filterAuto data
  match pyValidate schema data' with
  | .ok obj => deprecatedFieldsCheck schema obj
  | .error e => (.error e, [])

/-- `get_config_default(config, field_name)`: assert the field is declared,
assert it is not required, and return its declared default. -/
def get_config_default (schema : Schema) (fieldName : String) : Except PyErr Val :=
  match lookupStr schema fieldName with
  | none => .error (.assertionError ("'" ++ fieldName ++ "' is not a field in the config"))
  | some fi =>
    match fi.default with
    | none => .error (.assertionError ("'" ++ fieldName
        ++ "' is a required field and does not have a default value"))
    | some d => .ok d

/-- A validator that accepts any value unchanged. -/
def okV : Val → Except PyErr Val := fun v => .ok v

/-- Demo schema for `get_config_default`: one required field, one optional
field with default `7`. -/
def schemaC8 : Schema :=
  [("req", FieldInfo.mk none okV none none),
   ("opt", FieldInfo.mk (some (.vint 7)) okV none none)]

/-- C8: `get_config_default(model, field_name)` raises an assertion error
when `field_name` is not a declared field of the model or when the declared
field is required (has no default), and for every declared optional field it
returns that field's declared default value. -/
theorem C8_get_config_default (schema : Schema) (name : String) :
    (lookupStr schema name = none →
      ∃ m, get_config_default schema name = .error (.assertionError m)) ∧
    (∀ fi, lookupStr schema name = some fi → fi.default = none →
      ∃ m, get_config_default schema name = .error (.assertionError m)) ∧
    (∀ fi d, lookupStr schema name = some fi → fi.default = some d →
      get_config_default schema name = .ok d) := by
  refine ⟨?_, ?_, ?_⟩
  · intro h
    exact ⟨"'" ++ name ++ "' is not a field in the config",
      by simp only [get_config_default, h]⟩
  · intro fi h hd
    exact ⟨"'" ++ name ++ "' is a required field and does not have a default value",
      by simp only [get_config_default, h, hd]⟩
  · intro fi d h hd
    simp only [get_config_default, h, hd]

/-- Witness for C8 on a concrete schema: an unknown field and a required
field raise, an optional field with default `7` returns `7`. -/
theorem C8_get_config_default_witness :
    (∃ m, get_config_default schemaC8 "missing" = .error (.assertionError m)) ∧
    (∃ m, get_config_default schemaC8 "req" = .error (.assertionError m)) ∧
    get_config_default schemaC8 "opt" = .ok (.vint 7) := by
  refine ⟨?_, ?_, ?_⟩
  · exact (C8_get_config_default schemaC8 "missing").1 rfl
  · exact (C8_get_config_default schemaC8 "req").2.1 (FieldInfo.mk none okV none none) rfl rfl
  · exact (C8_get_config_default schemaC8 "opt").2.2 (FieldInfo.mk (some (.vint 7)) okV none none)
      (.vint 7) rfl rfl

/-! Association-list lemmas used by the deprecated-field pass proofs. -/

theorem lookupStr_setValue_self (vs : List (String × Val)) (k : String) (v : Val) :
    lookupStr (setValue vs k v) k = some v := by
  induction vs with
  | nil => simp [setValue, lookupStr]
  | cons p rest ih =>
    obtain ⟨k', v'⟩ := p
    by_cases h : k' = k
    · subst h; simp [setValue, lookupStr]
    · simp [setValue, lookupStr, h, ih]

theorem lookupStr_setValue_ne (vs : List (String × Val)) (k k' : String) (v : Val)
    (h : k' ≠ k) : lookupStr (setValue vs k v) k' = lookupStr vs k' := by
  have h' : k ≠ k' := Ne.symm h
  induction vs with
  | nil => simp [setValue, lookupStr, h']
  | cons p rest ih =>
    obtain ⟨k0, v0⟩ := p
    by_cases h0 : k0 = k
    · subst h0
      simp [setValue, lookupStr, h']
    · simp [setValue, lookupStr, h0, ih]

/-- Writing through a dotted path succeeds once navigation, the schema walk
and the final assignment succeed; afterwards the assigned sub-object sits at
the path and every top-level field off the path is untouched. -/
theorem updatePath_ok (lead : List String) :
    ∀ (S S' : Schema) (o sub o2' : Obj) (nm : String) (w : Val),
    navigate o lead = Except.ok sub →
    schemaAt S lead = some S' →
    setattrO S' sub nm w = Except.ok o2' →
    ∃ o2, updatePath S o lead nm w = Except.ok o2 ∧
      navigate o2 lead = Except.ok o2' ∧
      ∀ a, a ∉ lead → a ≠ nm → getattrO o2 a = getattrO o a := by
  induction lead with
  | nil =>
    intro S S' o sub o2' nm w hnav hS hset
    rw [navigate] at hnav
    obtain rfl : o = sub := by cases hnav; rfl
    rw [schemaAt] at hS
    obtain rfl : S = S' := by cases hS; rfl
    refine ⟨o2', ?_, ?_, ?_⟩
    · rw [updatePath]; exact hset
    · rw [navigate]
    · intro a _ hanm
      cases hfi : lookupStr S nm with
      | none => simp only [setattrO, hfi] at hset; exact Except.noConfusion hset
      | some fi =>
        cases hv : fi.validator w with
        | error e => simp only [setattrO, hfi, hv] at hset; exact Except.noConfusion hset
        | ok v' =>
          simp only [setattrO, hfi, hv, Except.ok.injEq] at hset
          subst hset
          simp [getattrO, lookupStr_setValue_ne _ _ _ _ hanm]
  | cons s rest ih =>
    intro S S' o sub o2' nm w hnav hS hset
    rw [navigate] at hnav
    rw [schemaAt] at hS
    cases hg : getattrO o s with
    | error e => rw [hg] at hnav; cases hnav
    | ok v =>
      rw [hg] at hnav
      cases v with
      | vstr s' => cases hnav
      | vint n => cases hnav
      | vbool b => cases hnav
      | vobj vs fs =>
        cases hsub : subSchemaOf S s with
        | none => rw [hsub] at hS; cases hS
        | some S1 =>
          rw [hsub] at hS
          obtain ⟨sub2, hup, hnav2, _⟩ := ih S1 S' ⟨vs, fs⟩ sub o2' nm w hnav hS hset
          refine ⟨⟨setValue o.values s (Val.vobj sub2.values sub2.fieldsSet), o.fieldsSet⟩,
            ?_, ?_, ?_⟩
          · simp only [updatePath, hg, hsub, hup, Obj.toVal]
          · have hg2 : getattrO ⟨setValue o.values s (Val.vobj sub2.values sub2.fieldsSet),
                o.fieldsSet⟩ s = Except.ok (Val.vobj sub2.values sub2.fieldsSet) := by
              simp [getattrO, lookupStr_setValue_self]
            simp only [navigate, hg2]
            exact hnav2
          · intro a halead hanm
            have has : a ≠ s := fun h => halead (h ▸ List.mem_cons_self s rest)
            simp [getattrO, lookupStr_setValue_ne _ _ _ _ has]

/-- C1: constructing a model that declares `A` deprecated with
`new_param="B"` and `set_new_param` true, with `A` explicitly supplied and
the final field of `B` not supplied, forwards `new_param_fn` of `A`'s value
to the field addressed by the dotted path `B` (the final segment on the
sub-object reached by the leading segments) and resets `A` to its declared
default. -/
theorem C1_deprecated_forwarding
    (S : Schema) (o : Obj) (A : String) (fi : FieldInfo) (m : DepMeta)
    (B : String) (v0 w d : Val) (obj1 sub : Obj) (S' : Schema) (fiB : FieldInfo)
    (h1 : lookupStr S A = some fi)
    (h2 : fi.schemaExtra = some m)
    (h3 : m.newParam = B)
    (h4 : B ≠ "")
    (h5 : m.setNewParam = true)
    (h6 : A ∈ o.fieldsSet)
    (h7 : getattrO o A = Except.ok v0)
    (h8 : (m.newParamFn.getD (fun v => Except.ok v)) v0 = Except.ok w)
    (h9 : fi.default = some d)
    (hdel : delattrO S o A = Except.ok obj1)
    (hnav : navigate obj1 (splitDots B).dropLast = Except.ok sub)
    (hnoconf : (splitDots B).getLastD "" ∉ sub.fieldsSet)
    (hS' : schemaAt S (splitDots B).dropLast = some S')
    (hfiB : lookupStr S' ((splitDots B).getLastD "") = some fiB)
    (hval : fiB.validator w = Except.ok w)
    (hAlead : A ∉ (splitDots B).dropLast)
    (hAlast : A ≠ (splitDots B).getLastD "") :
    ∃ o2, (processDeprecatedField S o A).1 = Except.ok o2 ∧
      getAtPath o2 (splitDots B) = Except.ok w ∧
      getattrO o2 A = Except.ok d := by
  have hset : setattrO S' sub ((splitDots B).getLastD "") w
      = Except.ok ⟨setValue sub.values ((splitDots B).getLastD "") w,
          insertNew ((splitDots B).getLastD "") sub.fieldsSet⟩ := by
    simp only [setattrO, hfiB, hval]
  obtain ⟨o2, hup, hnav2, hpres⟩ :=
    updatePath_ok (splitDots B).dropLast S S' obj1 sub _ _ w hnav hS' hset
  have hobj1 : obj1 = ⟨setValue o.values A d, o.fieldsSet.filter (fun s => s != A)⟩ := by
    simp only [delattrO, h1, h9, Except.ok.injEq] at hdel
    exact hdel.symm
  refine ⟨o2, ?_, ?_, ?_⟩
  · simp only [processDeprecatedField, h1, h2, h7, h8, h3, hdel, hnav, hup]
    simp only [List.getLastD_eq_getLast?] at hnoconf
    simp [h4, h5, h6, hnoconf]
  · simp only [getAtPath, hnav2, getattrO, lookupStr_setValue_self]
  · rw [hpres A hAlead hAlast, hobj1]
    simp [getattrO, lookupStr_setValue_self]

/-- C2: constructing a model that declares `A` deprecated with
`new_param="B"` and `set_new_param` true, with both `A` and (on the resolved
sub-object) the final field of `B` explicitly supplied, fails with the
conflict assertion error; construction does not complete. -/
theorem C2_conflict_old_and_new
    (S : Schema) (o : Obj) (A : String) (fi : FieldInfo) (m : DepMeta)
    (B : String) (v0 w : Val) (obj1 sub : Obj)
    (h1 : lookupStr S A = some fi)
    (h2 : fi.schemaExtra = some m)
    (h3 : m.newParam = B)
    (h4 : B ≠ "")
    (h5 : m.setNewParam = true)
    (h6 : A ∈ o.fieldsSet)
    (h7 : getattrO o A = Except.ok v0)
    (h8 : (m.newParamFn.getD (fun v => Except.ok v)) v0 = Except.ok w)
    (hdel : delattrO S o A = Except.ok obj1)
    (hnav : navigate obj1 (splitDots B).dropLast = Except.ok sub)
    (hconf : (splitDots B).getLastD "" ∈ sub.fieldsSet) :
    (processDeprecatedField S o A).1 = Except.error (.assertionError
      ("Cannot provide deprecated parameter '" ++ A ++ "' and replacing parameter '"
        ++ B ++ "' together")) := by
  simp only [processDeprecatedField, h1, h2, h7, h8, h3, hdel, hnav]
  simp only [List.getLastD_eq_getLast?] at hconf
  simp [h4, h5, h6, hconf]

/-- Demo sub-model schema: a single integer field `t` with default `0`. -/
def subSchemaDemo : Schema := [("t", FieldInfo.mk (some (.vint 0)) okV none none)]

/-- Demo schema for forwarding through a dotted path: `old` is deprecated
with `new_param="sub.t"`, `sub` holds a sub-config. -/
def schemaC1 : Schema :=
  [("old", FieldInfo.mk (some (.vstr "0")) okV
      (some ⟨true, "", "sub.t", true, none⟩) none),
   ("sub", FieldInfo.mk (some (Obj.toVal ⟨[("t", .vint 0)], []⟩)) okV none
      (some subSchemaDemo))]

/-- The post-validation state of `schemaC1` with `old="5"` supplied. -/
def objC1 : Obj := ⟨[("old", .vstr "5"), ("sub", .vobj [("t", .vint 0)] [])], ["old"]⟩

/-- Witness for C1: on `schemaC1` with `old="5"` supplied, the pass stores
`"5"` at `sub.t` and resets `old` to its default `"0"`. -/
theorem C1_deprecated_forwarding_witness :
    ∃ o2, (processDeprecatedField schemaC1 objC1 "old").1 = Except.ok o2 ∧
      getAtPath o2 (splitDots "sub.t") = Except.ok (.vstr "5") ∧
      getattrO o2 "old" = Except.ok (.vstr "0") :=
  C1_deprecated_forwarding schemaC1 objC1 "old"
    (FieldInfo.mk (some (.vstr "0")) okV (some ⟨true, "", "sub.t", true, none⟩) none)
    ⟨true, "", "sub.t", true, none⟩ "sub.t" (.vstr "5") (.vstr "5") (.vstr "0")
    ⟨[("old", .vstr "0"), ("sub", .vobj [("t", .vint 0)] [])], []⟩
    ⟨[("t", .vint 0)], []⟩ subSchemaDemo (FieldInfo.mk (some (.vint 0)) okV none none)
    rfl rfl rfl (by decide) rfl (by decide) rfl rfl rfl rfl rfl (by decide)
    rfl rfl rfl (by decide) (by decide)

/-- Demo schema for the conflict check: `old` is deprecated with
`new_param="new"`. -/
def schemaC2 : Schema :=
  [("old", FieldInfo.mk (some (.vstr "0")) okV
      (some ⟨true, "", "new", true, none⟩) none),
   ("new", FieldInfo.mk (some (.vint 0)) okV none none)]

/-- The post-validation state of `schemaC2` with both `old` and `new`
supplied. -/
def objC2 : Obj := ⟨[("old", .vstr "5"), ("new", .vint 9)], ["old", "new"]⟩

/-- Witness for C2: supplying both `old` and `new` makes the pass fail with
the conflict assertion. -/
theorem C2_conflict_old_and_new_witness :
    (processDeprecatedField schemaC2 objC2 "old").1 = Except.error (.assertionError
      "Cannot provide deprecated parameter 'old' and replacing parameter 'new' together") :=
  C2_conflict_old_and_new schemaC2 objC2 "old"
    (FieldInfo.mk (some (.vstr "0")) okV (some ⟨true, "", "new", true, none⟩) none)
    ⟨true, "", "new", true, none⟩ "new" (.vstr "5") (.vstr "5")
    ⟨[("old", .vstr "0"), ("new", .vint 9)], ["new"]⟩
    ⟨[("old", .vstr "0"), ("new", .vint 9)], ["new"]⟩
    rfl rfl rfl (by decide) rfl (by decide) rfl rfl rfl rfl (by decide)

/-- C9: during the deprecated-field pass, a failure while removing the
deprecated field's value or while assigning the forwarded value is logged at
error level naming the field and the operation, and the underlying exception
is then surfaced to the caller; it is never swallowed. -/
theorem C9_error_logging
    (S : Schema) (o : Obj) (A : String) (fi : FieldInfo) (m : DepMeta) (B : String)
    (v0 w : Val) (e : PyErr)
    (h1 : lookupStr S A = some fi)
    (h2 : fi.schemaExtra = some m)
    (h3 : m.newParam = B)
    (h4 : B ≠ "")
    (h5 : m.setNewParam = true)
    (h6 : A ∈ o.fieldsSet)
    (h7 : getattrO o A = Except.ok v0)
    (h8 : (m.newParamFn.getD (fun v => Except.ok v)) v0 = Except.ok w) :
    (delattrO S o A = Except.error e →
      (processDeprecatedField S o A).1 = Except.error e ∧
      LogEntry.error ("Tried removing deprecated '" ++ A ++ "' from config")
        ∈ (processDeprecatedField S o A).2) ∧
    (∀ obj1 sub, delattrO S o A = Except.ok obj1 →
      navigate obj1 (splitDots B).dropLast = Except.ok sub →
      (splitDots B).getLastD "" ∉ sub.fieldsSet →
      updatePath S obj1 (splitDots B).dropLast ((splitDots B).getLastD "") w
        = Except.error e →
      (processDeprecatedField S o A).1 = Except.error e ∧
      LogEntry.error ("Tried setting value for '" ++ B ++ "' with value from deprecated '"
        ++ A ++ "'") ∈ (processDeprecatedField S o A).2) := by
  constructor
  · intro hdel
    simp only [processDeprecatedField, h1, h2, h7, h8, h3, hdel]
    simp [h4, h5, h6]
  · intro obj1 sub hdel hnav hnoconf hup
    simp only [processDeprecatedField, h1, h2, h7, h8, h3, hdel, hnav, hup]
    simp only [List.getLastD_eq_getLast?] at hnoconf
    simp [h4, h5, h6, hnoconf]

/-- Demo schema for a removal failure: the deprecated field `legacy` is
required (it has no default to reset to), so `delattr` fails. -/
def schemaC9a : Schema :=
  [("legacy", FieldInfo.mk none okV (some ⟨true, "", "x", true, none⟩) none),
   ("x", FieldInfo.mk (some (.vint 0)) okV none none)]

/-- Instance state for the removal-failure scenario. -/
def objC9a : Obj := ⟨[("legacy", .vint 1), ("x", .vint 0)], ["legacy"]⟩

/-- A validator that rejects every value. -/
def badV : Val → Except PyErr Val := fun _ => .error (.validationError "invalid value")

/-- Demo schema for an assignment failure: the replacement field `bad`
rejects every assigned value. -/
def schemaC9b : Schema :=
  [("old", FieldInfo.mk (some (.vstr "0")) okV (some ⟨true, "", "bad", true, none⟩) none),
   ("bad", FieldInfo.mk (some (.vint 0)) badV none none)]

/-- Instance state for the assignment-failure scenario. -/
def objC9b : Obj := ⟨[("old", .vstr "5"), ("bad", .vint 0)], ["old"]⟩

/-- Witness for C9: a concrete removal failure and a concrete assignment
failure are both logged at error level and surfaced. -/
theorem C9_error_logging_witness :
    ((processDeprecatedField schemaC9a objC9a "legacy").1
        = Except.error (.attributeError "legacy") ∧
      LogEntry.error "Tried removing deprecated 'legacy' from config"
        ∈ (processDeprecatedField schemaC9a objC9a "legacy").2) ∧
    ((processDeprecatedField schemaC9b objC9b "old").1
        = Except.error (.validationError "invalid value") ∧
      LogEntry.error "Tried setting value for 'bad' with value from deprecated 'old'"
        ∈ (processDeprecatedField schemaC9b objC9b "old").2) := by
  constructor
  · exact (C9_error_logging schemaC9a objC9a "legacy"
      (FieldInfo.mk none okV (some ⟨true, "", "x", true, none⟩) none)
      ⟨true, "", "x", true, none⟩ "x" (.vint 1) (.vint 1) (.attributeError "legacy")
      rfl rfl rfl (by decide) rfl (by decide) rfl rfl).1 rfl
  · exact (C9_error_logging schemaC9b objC9b "old"
      (FieldInfo.mk (some (.vstr "0")) okV (some ⟨true, "", "bad", true, none⟩) none)
      ⟨true, "", "bad", true, none⟩ "bad" (.vstr "5") (.vstr "5")
      (.validationError "invalid value")
      rfl rfl rfl (by decide) rfl (by decide) rfl rfl).2
      ⟨[("old", .vstr "0"), ("bad", .vint 0)], []⟩
      ⟨[("old", .vstr "0"), ("bad", .vint 0)], []⟩
      rfl rfl (by decide) rfl

/-- A forwarding function that fails on every value. -/
def badFn : Val → Except PyErr Val := fun _ => .error (.userError "boom")

/-- Demo schema whose deprecated field carries a `new_param_fn` that always
raises. -/
def schemaC10 : Schema :=
  [("dep", FieldInfo.mk (some (.vint 0)) okV (some ⟨true, "", "", true, some badFn⟩) none)]

/-- C10: `new_param_fn` is applied to the deprecated field's current value on
every run of the pass, before (and regardless of) the check that the field
was explicitly supplied, so its exception aborts the pass with an empty log;
consequently constructing a model whose `new_param_fn` raises on the
validated default fails even when the caller supplied nothing. -/
theorem C10_new_param_fn_eager
    (S : Schema) (o : Obj) (A : String) (fi : FieldInfo) (m : DepMeta)
    (f : Val → Except PyErr Val) (v0 : Val) (e : PyErr)
    (h1 : lookupStr S A = some fi)
    (h2 : fi.schemaExtra = some m)
    (hfn : m.newParamFn = some f)
    (h7 : getattrO o A = Except.ok v0)
    (herr : f v0 = Except.error e) :
    processDeprecatedField S o A = (Except.error e, []) ∧
    initModel schemaC10 false [] = (Except.error (.userError "boom"), []) := by
  constructor
  · simp only [processDeprecatedField, h1, h2, hfn, Option.getD_some, h7, herr]
  · rfl

/-- Witness for C10: with no caller-supplied data at all, constructing the
demo model fails through its forwarding function applied to the default. -/
theorem C10_new_param_fn_eager_witness :
    processDeprecatedField schemaC10 ⟨[("dep", .vint 0)], []⟩ "dep"
      = (Except.error (.userError "boom"), []) :=
  (C10_new_param_fn_eager schemaC10 ⟨[("dep", .vint 0)], []⟩ "dep"
    (FieldInfo.mk (some (.vint 0)) okV (some ⟨true, "", "", true, some badFn⟩) none)
    ⟨true, "", "", true, some badFn⟩ badFn (.vint 0) (.userError "boom")
    rfl rfl rfl rfl rfl).1

/-- Demo schema for the `"auto"` filter interacting with deprecation
forwarding: `old` forwards into `newf`. -/
def schemaC3 : Schema :=
  [("old", FieldInfo.mk (some (.vint 0)) okV (some ⟨true, "", "newf", true, none⟩) none),
   ("newf", FieldInfo.mk (some (.vint 7)) okV none none),
   ("replace_method", FieldInfo.mk (some (.vstr "none")) okV none none)]

/-- Counterexample to C3 as stated: with `strict=false`, the entry
`newf="auto"` is dropped, yet the constructed model does not carry `newf`'s
declared default `7` and does mark `newf` as set, because the deprecated
field `old` forwards its value `5` into `newf` after validation. -/
theorem C3_counterexample :
    initModel schemaC3 false [("old", .vint 5), ("newf", .vstr "auto")] =
      (Except.ok ⟨[("old", .vint 0), ("newf", .vint 5), ("replace_method", .vstr "none")],
        ["newf"]⟩,
       [LogEntry.warning "Config parameter old is deprecated use newf instead"]) ∧
    get_config_default schemaC3 "newf" = Except.ok (.vint 7) ∧
    Val.vint 5 ≠ Val.vint 7 := by
  refine ⟨rfl, rfl, ?_⟩
  simp

/-- Demo schema without deprecated fields, for the amended C3. -/
def schemaC3X : Schema :=
  [("x", FieldInfo.mk (some (.vint 7)) okV none none),
   ("replace_method", FieldInfo.mk (some (.vstr "none")) okV none none)]

/-- C3 (amended): with `strict=false`, entries equal to `"auto"` whose key is
not `replace_method` are dropped before validation — construction coincides
with strict construction on the filtered mapping — so validation treats the
field as unsupplied (declared default, not marked set) unless the
deprecated-field pass later assigns it; a `replace_method="auto"` entry is
kept and validated; with `strict=true` nothing is dropped. -/
theorem C3_auto_filter_amended :
    (∀ (S : Schema) (data : List (String × Val)),
      initModel S false data = initModel S true (filterAuto data)) ∧
    (∀ (data : List (String × Val)) (k : String) (v : Val),
      ((k, v) ∈ filterAuto data ↔
        (k, v) ∈ data ∧ (isAuto v = false ∨ k = "replace_method"))) ∧
    initModel schemaC3X false [("x", .vstr "auto")]
      = (Except.ok ⟨[("x", .vint 7), ("replace_method", .vstr "none")], []⟩, []) ∧
    initModel schemaC3X false [("replace_method", .vstr "auto")]
      = (Except.ok ⟨[("x", .vint 7), ("replace_method", .vstr "auto")],
          ["replace_method"]⟩, []) ∧
    initModel schemaC3X true [("x", .vstr "auto")]
      = (Except.ok ⟨[("x", .vstr "auto"), ("replace_method", .vstr "none")], ["x"]⟩, []) := by
  refine ⟨fun S data => rfl, ?_, rfl, rfl, rfl⟩
  intro data k v
  simp [filterAuto, List.mem_filter]

/-! The `pp_int` wrapper. -/

/-- Helper for the `{:,}` format: walking the reversed digit list, emit a
comma before a digit whenever the countdown reaches zero. -/
def insertCommas : List Char → Nat → List Char
  | [], _ => []
  | c :: cs, 0 => ',' :: c :: insertCommas cs 2
  | c :: cs, k + 1 => c :: insertCommas cs k

/-- Python's `f"{n:,}"` for an integer: decimal digits grouped in threes from
the right with commas, with a leading minus sign for negatives. -/
def commaFormat (n : Int) : String :=
  (if n < 0 then "-" else "")
    ++ String.mk ((insertCommas (Nat.repr n.natAbs).data.reverse 3).reverse)

/-- The `pp_int` wrapper: the underlying integer value plus the optional
custom display string passed to the constructor. -/
structure pp_int : Type where
  val : Int
  custom_print_str : Option String

/-- The wrapper's `__repr__`: `if self.custom_print_str: return
self.custom_print_str` (Python truthiness, so `None` and `""` both fall
through) `; return f"{self.real:,}"`. -/
def pp_int.repr (x : pp_int) : String :=
  match x.custom_print_str with
  | some s => if s ≠ "" then s else commaFormat x.val
  | none => commaFormat x.val

/-- Counterexample to C6 as stated: constructed with the custom display
string `""`, the wrapper does not return it verbatim — the empty string is
falsy, so `repr` falls through to the comma format and yields `"5"`. -/
theorem C6_counterexample :
    pp_int.repr ⟨5, some ""⟩ = "5" ∧ pp_int.repr ⟨5, some ""⟩ ≠ "" := by
  exact ⟨rfl, by decide⟩

/-- C6 (amended): `repr` returns a non-empty custom display string verbatim;
with an empty or absent custom string it returns the integer grouped with
comma thousands separators; the wrapper preserves the underlying integer
value (all arithmetic and comparisons act on `val`). -/
theorem C6_pp_int_repr_amended :
    (∀ (v : Int) (s : String), s ≠ "" → pp_int.repr ⟨v, some s⟩ = s) ∧
    (∀ v : Int, pp_int.repr ⟨v, none⟩ = commaFormat v) ∧
    (∀ (v : Int) (s : Option String), (pp_int.mk v s).val = v) ∧
    pp_int.repr ⟨100000, none⟩ = "100,000" ∧
    pp_int.repr ⟨5, some "five"⟩ = "five" ∧
    pp_int.repr ⟨5, some ""⟩ = commaFormat 5 := by
  refine ⟨?_, fun v => rfl, fun v s => rfl, rfl, rfl, rfl⟩
  intro v s hs
  simp [pp_int.repr, hs]

/-- Witness for the amended C6 at a concrete non-empty custom string. -/
theorem C6_pp_int_repr_amended_witness :
    ("five" : String) ≠ "" ∧ pp_int.repr ⟨5, some "five"⟩ = "five" :=
  ⟨by decide, C6_pp_int_repr_amended.1 5 "five" (by decide)⟩

/-! The duplicate-key guard `dict_raise_error_on_duplicate_keys`. -/

/-- One step of Python's `dict((k, v) for ...)`: a repeated key keeps its
original position but takes the later value; a new key is appended. -/
def pyDictInsert {β : Type} (d : List (String × β)) (k : String) (v : β) :
    List (String × β) :=
  match lookupStr d k with
  | some _ => d.map (fun p => if p.1 = k then (k, v) else p)
  | none => d ++ [(k, v)]

/-- Python's `dict(ordered_pairs)`: first-occurrence key order, last value
wins. -/
def pyDict {β : Type} (pairs : List (String × β)) : List (String × β) :=
  pairs.foldl (fun d kv => pyDictInsert d kv.1 kv.2) []

/-- Keys in first-occurrence order, skipping ones already seen (the
iteration order of `collections.Counter`). -/
def firstKeysAux : List String → List String → List String
  | _, [] => []
  | seen, k :: ks =>
    if k ∈ seen then firstKeysAux seen ks else k :: firstKeysAux (k :: seen) ks

/-- `[key for key, value in counter.items() if value > 1]`: the keys that
occur more than once, in first-occurrence order. -/
def dupKeys {β : Type} (pairs : List (String × β)) : List String :=
  (firstKeysAux [] (pairs.map Prod.fst)).filter
    (fun k => 1 < (pairs.map Prod.fst).count k)

/-- `dict_raise_error_on_duplicate_keys`: build the dict; if any key
collapsed, raise listing the duplicated keys, else return the dict. -/
def dict_raise_error_on_duplicate_keys {β : Type} (pairs : List (String × β)) :
    Except (List String) (List (String × β)) :=
  let d := pyDict pairs
  if d.length ≠ pairs.length then .error (dupKeys pairs) else .ok d

theorem lookupStr_eq_none_iff {β : Type} (d : List (String × β)) (k : String) :
    lookupStr d k = none ↔ k ∉ d.map Prod.fst := by
  induction d with
  | nil => simp [lookupStr]
  | cons p rest ih =>
    obtain ⟨k0, v0⟩ := p
    by_cases h : k0 = k
    · subst h; simp [lookupStr]
    · simp [lookupStr, h, ih, Ne.symm h]

theorem map_fst_update {β : Type} (d : List (String × β)) (k : String) (v : β) :
    (d.map (fun p => if p.1 = k then (k, v) else p)).map Prod.fst = d.map Prod.fst := by
  induction d with
  | nil => rfl
  | cons p rest ih =>
    by_cases h : p.1 = k
    · simp [h, ih]
    · simp [h, ih]

theorem keys_pyDictInsert {β : Type} (d : List (String × β)) (k : String) (v : β) :
    (pyDictInsert d k v).map Prod.fst =
      if k ∈ d.map Prod.fst then d.map Prod.fst else d.map Prod.fst ++ [k] := by
  unfold pyDictInsert
  cases h : lookupStr d k with
  | none =>
    rw [lookupStr_eq_none_iff] at h
    simp [h]
  | some v0 =>
    have hk : k ∈ d.map Prod.fst := by
      by_contra hk
      rw [← lookupStr_eq_none_iff] at hk
      rw [h] at hk
      exact Option.noConfusion hk
    rw [if_pos hk, map_fst_update]

/-- The seen-set fold that mirrors key accumulation in `pyDict`. -/
def seenFold : List String → List String → List String
  | seen, [] => seen
  | seen, k :: ks => seenFold (if k ∈ seen then seen else seen ++ [k]) ks

theorem keys_pyDict_aux {β : Type} (pairs : List (String × β)) :
    ∀ acc : List (String × β),
      (List.foldl (fun d kv => pyDictInsert d kv.1 kv.2) acc pairs).map Prod.fst
        = seenFold (acc.map Prod.fst) (pairs.map Prod.fst) := by
  induction pairs with
  | nil => intro acc; rfl
  | cons p rest ih =>
    intro acc
    simp only [List.foldl_cons, List.map_cons, seenFold]
    rw [ih, keys_pyDictInsert]

theorem keys_pyDict {β : Type} (pairs : List (String × β)) :
    (pyDict pairs).map Prod.fst = seenFold [] (pairs.map Prod.fst) :=
  keys_pyDict_aux pairs []

theorem seenFold_length_le (ks : List String) :
    ∀ seen : List String, (seenFold seen ks).length ≤ seen.length + ks.length := by
  induction ks with
  | nil => intro seen; simp [seenFold]
  | cons a rest ih =>
    intro seen
    rw [seenFold]
    by_cases h : a ∈ seen
    · simp only [h, if_pos]
      have := ih seen
      simp only [List.length_cons]
      omega
    · simp only [h, if_neg, not_false_iff]
      have := ih (seen ++ [a])
      simp only [List.length_append, List.length_cons, List.length_nil] at *
      omega

theorem seenFold_length_lt_of_mem (ks : List String) :
    ∀ (seen : List String) (k : String), k ∈ seen → k ∈ ks →
      (seenFold seen ks).length < seen.length + ks.length := by
  induction ks with
  | nil => intro seen k _ hk; cases hk
  | cons a rest ih =>
    intro seen k hseen hk
    rw [seenFold]
    by_cases ha : a = k
    · subst ha
      simp only [hseen, if_pos]
      have := seenFold_length_le rest seen
      simp only [List.length_cons]
      omega
    · have hkr : k ∈ rest := by
        cases hk with
        | head => exact absurd rfl ha
        | tail _ h => exact h
      by_cases hmem : a ∈ seen
      · simp only [hmem, if_pos]
        have := ih seen k hseen hkr
        simp only [List.length_cons]
        omega
      · simp only [hmem, if_neg, not_false_iff]
        have hk' : k ∈ seen ++ [a] := List.mem_append_left _ hseen
        have := ih (seen ++ [a]) k hk' hkr
        simp only [List.length_append, List.length_cons, List.length_nil] at *
        omega

theorem seenFold_length_lt_of_dup (ks : List String) :
    ∀ (seen : List String) (k : String), 2 ≤ ks.count k →
      (seenFold seen ks).length < seen.length + ks.length := by
  induction ks with
  | nil => intro seen k h; simp [List.count_nil] at h
  | cons a rest ih =>
    intro seen k hcount
    rw [seenFold]
    by_cases ha : a = k
    · subst ha
      have h1 : 1 ≤ rest.count a := by
        rw [List.count_cons_self] at hcount
        omega
      have hmem : a ∈ rest := by
        rw [← List.count_pos_iff]
        omega
      have hk' : a ∈ (if a ∈ seen then seen else seen ++ [a]) := by
        by_cases h : a ∈ seen
        · simp [h]
        · simp [h]
      have := seenFold_length_lt_of_mem rest _ a hk' hmem
      by_cases h : a ∈ seen
      · simp only [h, if_pos] at this ⊢
        simp only [List.length_cons]
        omega
      · simp only [h, if_neg, not_false_iff] at this ⊢
        simp only [List.length_append, List.length_cons, List.length_nil] at *
        omega
    · have hcount' : 2 ≤ rest.count k := by
        rw [List.count_cons_of_ne (fun h => ha h.symm)] at hcount
        exact hcount
      have := ih (if a ∈ seen then seen else seen ++ [a]) k hcount'
      by_cases h : a ∈ seen
      · simp only [h, if_pos] at this ⊢
        simp only [List.length_cons]
        omega
      · simp only [h, if_neg, not_false_iff] at this ⊢
        simp only [List.length_append, List.length_cons, List.length_nil] at *
        omega

theorem pyDict_eq_self_aux {β : Type} (pairs : List (String × β)) :
    ∀ acc : List (String × β), (pairs.map Prod.fst).Nodup →
      (∀ k ∈ pairs.map Prod.fst, k ∉ acc.map Prod.fst) →
      List.foldl (fun d kv => pyDictInsert d kv.1 kv.2) acc pairs = acc ++ pairs := by
  induction pairs with
  | nil => intro acc _ _; simp
  | cons p rest ih =>
    intro acc hnd hdisj
    have hp : p.1 ∉ acc.map Prod.fst := hdisj p.1 (by simp)
    have hins : pyDictInsert acc p.1 p.2 = acc ++ [p] := by
      unfold pyDictInsert
      rw [(lookupStr_eq_none_iff acc p.1).mpr hp]
    simp only [List.foldl_cons, hins]
    rw [ih (acc ++ [p]) (by simp at hnd; exact hnd.2)]
    · simp
    · intro k hk
      simp only [List.map_append, List.map_cons, List.map_nil, List.mem_append,
        List.mem_singleton]
      rintro (h | h)
      · exact hdisj k (by simp [hk]) h
      · simp only [List.map_cons, List.nodup_cons] at hnd
        exact hnd.1 (h ▸ hk)

theorem pyDict_eq_self {β : Type} (pairs : List (String × β))
    (hnd : (pairs.map Prod.fst).Nodup) : pyDict pairs = pairs := by
  have := pyDict_eq_self_aux pairs [] hnd (by intro k _; simp)
  simpa [pyDict] using this

theorem mem_firstKeysAux (ks : List String) :
    ∀ (seen : List String) (k : String),
      k ∈ firstKeysAux seen ks ↔ k ∈ ks ∧ k ∉ seen := by
  induction ks with
  | nil => intro seen k; simp [firstKeysAux]
  | cons a rest ih =>
    intro seen k
    rw [firstKeysAux]
    by_cases ha : a ∈ seen
    · simp only [ha, if_pos, ih]
      constructor
      · rintro ⟨h1, h2⟩
        exact ⟨List.mem_cons_of_mem _ h1, h2⟩
      · rintro ⟨h1, h2⟩
        cases h1 with
        | head => exact absurd ha h2
        | tail _ h => exact ⟨h, h2⟩
    · simp only [ha, if_neg, not_false_iff, List.mem_cons, ih]
      by_cases hk : k = a
      · subst hk
        simp [ha]
      · simp only [hk, false_or]

/-- C7: the duplicate-key guard raises an error listing exactly the keys
that occur more than once whenever any key repeats (whatever the values),
and otherwise returns the mapping with every pair and insertion order
preserved. -/
theorem C7_duplicate_keys {β : Type} (pairs : List (String × β)) :
    (¬ (pairs.map Prod.fst).Nodup →
      dict_raise_error_on_duplicate_keys pairs = .error (dupKeys pairs) ∧
      ∀ k, k ∈ dupKeys pairs ↔ 1 < (pairs.map Prod.fst).count k) ∧
    ((pairs.map Prod.fst).Nodup →
      dict_raise_error_on_duplicate_keys pairs = .ok pairs) := by
  constructor
  · intro hnd
    have hlt : (pyDict pairs).length < pairs.length := by
      obtain ⟨k, hk⟩ : ∃ k, 2 ≤ (pairs.map Prod.fst).count k := by
        by_contra h
        push_neg at h
        exact hnd (List.nodup_iff_count_le_one.mpr (fun a => by have := h a; omega))
      have := seenFold_length_lt_of_dup (pairs.map Prod.fst) [] k hk
      have hkeys : (pyDict pairs).length = (seenFold [] (pairs.map Prod.fst)).length := by
        rw [← keys_pyDict pairs, List.length_map]
      rw [hkeys]
      simpa using this
    constructor
    · unfold dict_raise_error_on_duplicate_keys
      rw [if_pos (by omega)]
    · intro k
      unfold dupKeys
      rw [List.mem_filter]
      simp only [decide_eq_true_eq, mem_firstKeysAux]
      constructor
      · rintro ⟨_, h⟩; exact h
      · intro h
        refine ⟨⟨?_, by simp⟩, h⟩
        rw [← List.count_pos_iff]
        omega
  · intro hnd
    have heq := pyDict_eq_self pairs hnd
    unfold dict_raise_error_on_duplicate_keys
    rw [heq, if_neg (by omega)]

/-- Witness for C7 on the spec's concrete inputs: `[("x",1),("x",2)]` raises
naming `"x"`; `[("x",1),("y",2)]` returns the mapping unchanged. -/
theorem C7_duplicate_keys_witness :
    (¬ ([("x", (1 : Int)), ("x", 2)].map Prod.fst).Nodup ∧
      dict_raise_error_on_duplicate_keys [("x", (1 : Int)), ("x", 2)] = .error ["x"]) ∧
    (([("x", (1 : Int)), ("y", 2)].map Prod.fst).Nodup ∧
      dict_raise_error_on_duplicate_keys [("x", (1 : Int)), ("y", 2)]
        = .ok [("x", 1), ("y", 2)]) := by
  refine ⟨⟨by decide, ?_⟩, ⟨by decide, ?_⟩⟩
  · exact ((C7_duplicate_keys [("x", (1 : Int)), ("x", 2)]).1 (by decide)).1
  · exact (C7_duplicate_keys [("x", (1 : Int)), ("y", 2)]).2 (by decide)

/-! The `ScientificNotationEncoder`. -/

/-- `" " * n`. -/
def spaces (n : Nat) : String := String.mk (List.replicate n ' ')

/-- Number of decimal digits of a natural number (1 for 0). -/
def numDigits (n : Nat) : Nat :=
  if h : n < 10 then 1 else numDigits (n / 10) + 1
termination_by n
decreasing_by exact Nat.div_lt_self (by omega) (by omega)

/-- Round `num / den` to the nearest integer, ties to even. -/
def roundHalfEven (num den : Nat) : Nat :=
  let q := num / den
  let r := num % den
  if 2 * r < den then q
  else if den < 2 * r then q + 1
  else if q % 2 = 0 then q else q + 1

/-- Scale a natural number to a 7-digit mantissa (6 fractional digits,
ties to even) and its decimal exponent, as `%e` formatting does. -/
def sciMantissaExp (n : Nat) : Nat × Nat :=
  let k := numDigits n
  let M := if k ≤ 7 then n * 10 ^ (7 - k) else roundHalfEven n (10 ^ (k - 7))
  if M < 10 ^ 7 then (M, k - 1) else (M / 10, k)

/-- The character for a decimal digit. -/
def digitChar (d : Nat) : Char := Char.ofNat (48 + d)

/-- The exponent part of `%e` output: at least two digits, zero padded. -/
def expDigits (e : Nat) : String :=
  if e < 10 then "0" ++ Nat.repr e else Nat.repr e

/-- Python's `f"{o:e}"` for a positive integer: `d.dddddde+XX` with six
fractional digits (the format's default precision) and a two-digit-minimum
exponent. Numbers are modelled as exact integers, so the mantissa is the
exact decimal rounding of `n` (ties to even). -/
def formatExpNat (n : Nat) : String :=
  let M := (sciMantissaExp n).1
  String.mk [digitChar (M / 1000000), '.',
    digitChar (M / 100000 % 10), digitChar (M / 10000 % 10), digitChar (M / 1000 % 10),
    digitChar (M / 100 % 10), digitChar (M / 10 % 10), digitChar (M % 10)]
  ++ "e+" ++ expDigits (sciMantissaExp n).2

/-- `f"{o:e}"` for the integers the encoder sends there (all greater than
1000, hence positive). -/
def formatExpInt (n : Int) : String := formatExpNat n.toNat

/-- Hexadecimal digit character, lowercase. -/
def hexDigitChar (d : Nat) : Char :=
  if d < 10 then Char.ofNat (48 + d) else Char.ofNat (87 + d)

/-- JSON string escaping of one character, as the standard encoder emits it
for ASCII input. -/
def escapeJsonChar (c : Char) : List Char :=
  if c = '"' then ['\\', '"']
  else if c = '\\' then ['\\', '\\']
  else if c = '\n' then ['\\', 'n']
  else if c = '\t' then ['\\', 't']
  else if c = '\r' then ['\\', 'r']
  else if c = '\x08' then ['\\', 'b']
  else if c = '\x0c' then ['\\', 'f']
  else if c.toNat < 32 then
    ['\\', 'u', '0', '0', hexDigitChar (c.toNat / 16), hexDigitChar (c.toNat % 16)]
  else [c]

/-- The standard encoder's rendering of a bare string (one chunk). -/
def pyJsonString (s : String) : String :=
  "\"" ++ String.mk (s.data.flatMap escapeJsonChar) ++ "\""

/-- The values the encoder traverses: booleans, numbers (modelled as exact
integers), strings, null, sequences and ordered mappings. -/
inductive JVal : Type where
  | jbool (b : Bool)
  | jnum (n : Int)
  | jstr (s : String)
  | jnull
  | jarr (xs : List JVal)
  | jmap (kv : List (String × JVal))

mutual

/-- `ScientificNotationEncoder.iterencode(self, o, _one_shot=False, level=0)`:
booleans before numbers, numbers greater than `1e3` in `%e` form, mappings
with one newline-prefixed, depth-indented line per pair (`indent` defaults to
4 when the encoder has none), sequences flat via `map(self.iterencode, o)`
(which resets `level` to its default 0), and everything else through the
standard encoder joined with `"\n, "` (a single chunk for strings and null). -/
def iterencode (indentOpt : Option Nat) (level : Nat) : JVal → String
  | .jbool b => if b then "true" else "false"
  | .jnum n => if 1000 < n then formatExpInt n else Int.repr n
  | .jmap kv =>
    "\x7b" ++ String.intercalate ", " (encodePairs indentOpt (level + 1) kv)
      ++ "\n" ++ spaces (level * indentOpt.getD 4) ++ "\x7d"
  | .jarr xs => "[" ++ String.intercalate ", " (encodeElems indentOpt xs) ++ "]"
  | .jstr s => pyJsonString s
  | .jnull => "null"

/-- The mapping comprehension inside `iterencode`:
`f-string of newline, prefix, quoted key, colon, encoded value` per pair. -/
def encodePairs (indentOpt : Option Nat) (level : Nat) :
    List (String × JVal) → List String
  | [] => []
  | (k, v) :: rest =>
    ("\n" ++ spaces (level * indentOpt.getD 4) ++ "\"" ++ k ++ "\": "
      ++ iterencode indentOpt level v) :: encodePairs indentOpt level rest

/-- `map(self.iterencode, o)` over a sequence: each element encoded with the
default `level=0`. -/
def encodeElems (indentOpt : Option Nat) : List JVal → List String
  | [] => []
  | v :: rest => iterencode indentOpt 0 v :: encodeElems indentOpt rest

end

theorem lt_ten_pow_numDigits (n : Nat) : n < 10 ^ numDigits n := by
  induction n using Nat.strong_induction_on with
  | _ n ih =>
    rw [numDigits]
    split
    · rename_i h
      have : (10:Nat) ^ 1 = 10 := by norm_num
      omega
    · rename_i h
      have h10 : n / 10 < n := Nat.div_lt_self (by omega) (by omega)
      have ht := ih (n / 10) h10
      rw [pow_succ]
      omega

theorem roundHalfEven_le (num den : Nat) : roundHalfEven num den ≤ num / den + 1 := by
  simp only [roundHalfEven]
  split_ifs <;> omega

theorem sciMantissaExp_fst_lt (n : Nat) : (sciMantissaExp n).1 < 10 ^ 7 := by
  have hlt := lt_ten_pow_numDigits n
  have hMle : (if numDigits n ≤ 7 then n * 10 ^ (7 - numDigits n)
      else roundHalfEven n (10 ^ (numDigits n - 7))) ≤ 10 ^ 7 := by
    split
    · rename_i h7
      have hkk : numDigits n + (7 - numDigits n) = 7 := by omega
      have hstep : n * 10 ^ (7 - numDigits n) < 10 ^ 7 := by
        calc n * 10 ^ (7 - numDigits n) < 10 ^ numDigits n * 10 ^ (7 - numDigits n) :=
              Nat.mul_lt_mul_of_pos_right hlt (pow_pos (by norm_num) _)
          _ = 10 ^ 7 := by rw [← pow_add, hkk]
      omega
    · rename_i h7
      have hq : n / 10 ^ (numDigits n - 7) < 10 ^ 7 := by
        apply Nat.div_lt_of_lt_mul
        calc n < 10 ^ numDigits n := hlt
          _ = 10 ^ (numDigits n - 7) * 10 ^ 7 := by rw [← pow_add]; congr 1; omega
      have := roundHalfEven_le n (10 ^ (numDigits n - 7))
      omega
  have key : ∀ (M e1 e2 : Nat), M ≤ 10 ^ 7 →
      (if M < 10 ^ 7 then (M, e1) else (M / 10, e2)).1 < 10 ^ 7 := by
    intro M e1 e2 hle
    split
    · rename_i h; simpa using h
    · rename_i h
      have h7 : (10:Nat) ^ 7 = 10000000 := by norm_num
      simp only
      rw [h7] at hle ⊢
      omega
  simp only [sciMantissaExp]
  exact key _ _ _ hMle

theorem digitChar_isDigit (d : Nat) (h : d < 10) : (digitChar d).isDigit = true := by
  interval_cases d <;> decide

/-- The `%e` output of a natural number decomposes as one digit, a point,
six fractional digits, a lowercase `e`, a plus sign and the exponent. -/
theorem formatExpNat_structure (n : Nat) :
    ∃ c0 c1 c2 c3 c4 c5 c6 ex, formatExpNat n =
      String.mk [c0, '.', c1, c2, c3, c4, c5, c6] ++ "e+" ++ ex ∧
      c0.isDigit = true ∧ c1.isDigit = true ∧ c2.isDigit = true ∧ c3.isDigit = true ∧
      c4.isDigit = true ∧ c5.isDigit = true ∧ c6.isDigit = true := by
  have hM := sciMantissaExp_fst_lt n
  have h7 : (10:Nat) ^ 7 = 10000000 := by norm_num
  rw [h7] at hM
  refine ⟨digitChar ((sciMantissaExp n).1 / 1000000),
    digitChar ((sciMantissaExp n).1 / 100000 % 10),
    digitChar ((sciMantissaExp n).1 / 10000 % 10),
    digitChar ((sciMantissaExp n).1 / 1000 % 10),
    digitChar ((sciMantissaExp n).1 / 100 % 10),
    digitChar ((sciMantissaExp n).1 / 10 % 10),
    digitChar ((sciMantissaExp n).1 % 10),
    expDigits (sciMantissaExp n).2, rfl,
    digitChar_isDigit _ (by omega), digitChar_isDigit _ (by omega),
    digitChar_isDigit _ (by omega), digitChar_isDigit _ (by omega),
    digitChar_isDigit _ (by omega), digitChar_isDigit _ (by omega),
    digitChar_isDigit _ (by omega)⟩

theorem iterencode_jmap (i : Option Nat) (l : Nat) (kvs : List (String × JVal)) :
    iterencode i l (.jmap kvs) =
      "\x7b" ++ String.intercalate ", " (kvs.map (fun p =>
        "\n" ++ spaces ((l + 1) * i.getD 4) ++ "\"" ++ p.1 ++ "\": "
          ++ iterencode i (l + 1) p.2))
        ++ "\n" ++ spaces (l * i.getD 4) ++ "\x7d" := by
  have hpairs : ∀ (lv : Nat) (kvs : List (String × JVal)),
      encodePairs i lv kvs = kvs.map (fun p =>
        "\n" ++ spaces (lv * i.getD 4) ++ "\"" ++ p.1 ++ "\": " ++ iterencode i lv p.2) := by
    intro lv kvs
    induction kvs with
    | nil => simp [encodePairs]
    | cons p rest ih =>
      obtain ⟨k, v⟩ := p
      simp [encodePairs, ih]
  rw [iterencode, hpairs]

theorem iterencode_jarr (i : Option Nat) (l : Nat) (xs : List JVal) :
    iterencode i l (.jarr xs) =
      "[" ++ String.intercalate ", " (xs.map (iterencode i 0)) ++ "]" := by
  have helems : ∀ xs : List JVal,
      encodeElems i xs = xs.map (iterencode i 0) := by
    intro xs
    induction xs with
    | nil => simp [encodeElems]
    | cons v rest ih => simp [encodeElems, ih]
  rw [iterencode, helems]

/-- C4: the encoder maps booleans to the literals `true`/`false` (the
boolean branch precedes the numeric branch), any number strictly greater
than 1000 to lowercase-`e` exponential notation with six fractional digits,
and any number at most 1000 to its plain decimal string. -/
theorem C4_scalar_encoding :
    (∀ (i : Option Nat) (l : Nat) (b : Bool),
      iterencode i l (.jbool b) = if b then "true" else "false") ∧
    (∀ (i : Option Nat) (l : Nat) (n : Int), 1000 < n →
      iterencode i l (.jnum n) = formatExpInt n ∧
      ∃ c0 c1 c2 c3 c4 c5 c6 ex, iterencode i l (.jnum n) =
        String.mk [c0, '.', c1, c2, c3, c4, c5, c6] ++ "e+" ++ ex ∧
        c0.isDigit = true ∧ c1.isDigit = true ∧ c2.isDigit = true ∧ c3.isDigit = true ∧
        c4.isDigit = true ∧ c5.isDigit = true ∧ c6.isDigit = true) ∧
    (∀ (i : Option Nat) (l : Nat) (n : Int), n ≤ 1000 →
      iterencode i l (.jnum n) = Int.repr n) ∧
    iterencode none 0 (.jnum 12000) = "1.200000e+04" ∧
    iterencode none 0 (.jnum 500) = "500" ∧
    iterencode none 0 (.jbool true) = "true" := by
  have hnum : ∀ (i : Option Nat) (l : Nat) (n : Int), 1000 < n →
      iterencode i l (.jnum n) = formatExpInt n := by
    intro i l n h
    rw [iterencode, if_pos h]
  refine ⟨?_, ?_, ?_, ?_, ?_, ?_⟩
  · intro i l b
    rw [iterencode]
  · intro i l n h
    refine ⟨hnum i l n h, ?_⟩
    rw [hnum i l n h, formatExpInt]
    exact formatExpNat_structure n.toNat
  · intro i l n h
    rw [iterencode, if_neg (not_lt.mpr h)]
  · have h5 : numDigits 12000 = 5 := by simp [numDigits]
    have hs : sciMantissaExp 12000 = (1200000, 4) := by norm_num [sciMantissaExp, h5]
    rw [hnum none 0 12000 (by norm_num), formatExpInt,
      show Int.toNat 12000 = 12000 from rfl]
    simp only [formatExpNat, hs]
    decide
  · rw [iterencode, if_neg (by norm_num)]
    decide
  · rw [iterencode]
    decide

/-- Witness for C4's quantified branches at concrete inputs. -/
theorem C4_scalar_encoding_witness :
    ((1000 : Int) < 2000 ∧
      iterencode none 0 (.jnum 2000) = formatExpInt 2000) ∧
    ((500 : Int) ≤ 1000 ∧ iterencode none 0 (.jnum 500) = Int.repr 500) :=
  ⟨⟨by norm_num, (C4_scalar_encoding.2.1 none 0 2000 (by norm_num)).1⟩,
   ⟨by norm_num, C4_scalar_encoding.2.2.1 none 0 500 (by norm_num)⟩⟩

/-- C5: a mapping renders as `{`, newline-prefixed pairs indented by
(depth x indent width, default 4) joined by `", "`, then a newline, the
parent indentation and `}`; a non-string sequence renders flat as `[`,
elements joined by `", "`, `]`, with no newlines of its own. -/
theorem C5_container_encoding :
    (∀ (i : Option Nat) (l : Nat) (kvs : List (String × JVal)),
      iterencode i l (.jmap kvs) =
        "\x7b" ++ String.intercalate ", " (kvs.map (fun p =>
          "\n" ++ spaces ((l + 1) * i.getD 4) ++ "\"" ++ p.1 ++ "\": "
            ++ iterencode i (l + 1) p.2))
          ++ "\n" ++ spaces (l * i.getD 4) ++ "\x7d") ∧
    (∀ (i : Option Nat) (l : Nat) (xs : List JVal),
      iterencode i l (.jarr xs) =
        "[" ++ String.intercalate ", " (xs.map (iterencode i 0)) ++ "]") ∧
    iterencode none 0 (.jmap [("a", .jnum 1200), ("b", .jarr [.jnum 1, .jnum 2000])])
      = "\x7b\n    \"a\": 1.200000e+03, \n    \"b\": [1, 2.000000e+03]\n\x7d" := by
  refine ⟨iterencode_jmap, iterencode_jarr, ?_⟩
  have h1200 : iterencode none 1 (.jnum 1200) = "1.200000e+03" := by
    have h4 : numDigits 1200 = 4 := by simp [numDigits]
    have hs : sciMantissaExp 1200 = (1200000, 3) := by norm_num [sciMantissaExp, h4]
    rw [iterencode, if_pos (by norm_num), formatExpInt,
      show Int.toNat 1200 = 1200 from rfl]
    simp only [formatExpNat, hs]
    decide
  have h2000 : iterencode none 0 (.jnum 2000) = "2.000000e+03" := by
    have h4 : numDigits 2000 = 4 := by simp [numDigits]
    have hs : sciMantissaExp 2000 = (2000000, 3) := by norm_num [sciMantissaExp, h4]
    rw [iterencode, if_pos (by norm_num), formatExpInt,
      show Int.toNat 2000 = 2000 from rfl]
    simp only [formatExpNat, hs]
    decide
  have h1 : iterencode none 0 (.jnum 1) = "1" := by
    rw [iterencode, if_neg (by norm_num)]
    decide
  rw [iterencode_jmap]
  simp only [List.map_cons, List.map_nil, iterencode_jarr, h1200]
  simp only [List.map_cons, List.map_nil, h1, h2000]
  decide

end DS
